import Mathlib

/-!
Verification of the Google-Calendar incremental synchronization engine
(webhook handler, change fetcher/classifier, deduplicating dispatcher,
full-sync runner, and memory-vault sink adapter).

The TypeScript source is shallowly embedded: provider calls (Google
Calendar `events.list`, vault HTTP requests) are supplied by explicit
oracles; throwing JavaScript code is modelled with `Except`; the
database (sync-token store and connection-status row) is threaded as
explicit state, and every store write is recorded in a trace so that
order and count of side effects can be stated.  Database writes
themselves are modelled as always succeeding; the claims under study
concern provider and sink failures, not store failures.
-/

namespace GCalSync

/-- A calendar event as seen by the sync engine.  Of `Schema$Event` only the
fields the engine inspects are modelled (`id`, `status`, `created`,
`updated`); all of them are optional in the wire format. -/
structure Event where
  id : Option String
  status : Option String
  created : Option String
  updated : Option String
deriving Repr, DecidableEq

/-- The classification of a fetched change, mirroring the string union
`'created' | 'updated' | 'deleted'`. -/
inductive ChangeType where
  | created
  | updated
  | deleted
deriving Repr, DecidableEq

/-- `WebhookHandler.determineChangeType`: `status === 'cancelled'` is deleted;
otherwise equal `created`/`updated` timestamps mean created; anything else is
updated.  (In JS two absent timestamps compare equal, hence `Option` equality.) -/
def determineChangeType (event : Event) : ChangeType :=
  if event.status = some "cancelled" then
    ChangeType.deleted
  else if event.created = event.updated then
    ChangeType.created
  else
    ChangeType.updated

/-- A fetched change: the event together with its classification
(`CalendarChange` in the source). -/
structure CalendarChange where
  event : Event
  changeType : ChangeType
deriving Repr, DecidableEq

/-- Classify a provider response page, as done inline in
`fetchIncrementalChanges`. -/
def mapChanges (items : List Event) : List CalendarChange :=
  items.map fun e => { event := e, changeType := determineChangeType e }

/-! ## Deduplicating dispatcher (`processWebhookAsync`) -/

/-- The processing key `` `${userId}_${headers.channelId}` ``. -/
def processingKey (userId channelId : String) : String :=
  userId ++ "_" ++ channelId

/-- Whether the orchestration run bound to a key finishes normally or by
throwing; the `finally` block of `processWebhookAsync` runs in both cases. -/
inductive RunOutcome where
  | success
  | failure
deriving Repr, DecidableEq

/-- Observed behaviour of one `processWebhookAsync` trigger: whether the work
ran, the registry contents while it ran, and the registry after completion. -/
structure DispatchResult where
  ran : Bool
  during : List String
  after : List String
deriving Repr, DecidableEq

/-- `WebhookHandler.processWebhookAsync`: the in-flight registry
(`processingQueue`, modelled by its key set) is checked; a key already present
drops the trigger; otherwise the key is registered, the work runs (with either
outcome), and the `finally` block removes the key. -/
def processWebhookAsync (queue : List String) (userId channelId : String)
    (outcome : RunOutcome) : DispatchResult :=
  let key := processingKey userId channelId
  if key ∈ queue then
    { ran := false, during := queue, after := queue }
  else
    let registered := key :: queue
    match outcome with
    | RunOutcome.success => { ran := true, during := registered, after := registered.erase key }
    | RunOutcome.failure => { ran := true, during := registered, after := registered.erase key }

/-! ## Incremental fetch (`fetchIncrementalChanges`) -/

/-- A provider/API error as the handler observes it: an optional numeric
`code` and an optional `message` (either may be absent on a JS error). -/
structure ApiError where
  code : Option Nat
  message : Option String
deriving Repr, DecidableEq

/-- The cursor-invalidity test
`error.code === 410 || (error.message && error.message.includes('Sync token is no longer valid'))`.
Substring containment is expressed through `String.splitOn`: the needle occurs
iff splitting on it yields more than one piece. -/
def isSyncTokenInvalid (e : ApiError) : Bool :=
  e.code == some 410 ||
    (match e.message with
     | some m => (m.splitOn "Sync token is no longer valid").length > 1
     | none => false)

/-- Outcome of one `calendar.events.list` round trip inside the retry loop:
either a response (its items and optional `nextSyncToken`) or a thrown error. -/
inductive AttemptResult where
  | ok (items : List Event) (nextSyncToken : Option String)
  | err (e : ApiError)
deriving Repr, DecidableEq

/-- The request parameters the fetch builds for `events.list`. -/
structure ListParams where
  calendarId : String
  showDeleted : Bool
  singleEvents : Bool
  maxResults : Nat
  syncToken : Option String
  timeMin : Option Int
deriving Repr, DecidableEq

/-- JS truthiness of an optional string (`if (lastSyncToken)`,
`if (response.data.nextSyncToken)`): present and non-empty. -/
def tokenPresent : Option String → Bool
  | some s => s != ""
  | none => false

/-- Milliseconds per day; timestamps are epoch milliseconds as in JS `Date`. -/
def dayMs : Int := 86400000

/-- The `listParams` built per attempt: `showDeleted`, `singleEvents`,
`maxResults: 250`, and either the stored sync token or, when no token is
stored, `timeMin` thirty days before `now`. -/
def mkListParams (calendarId : String) (now : Int) (tok : Option String) : ListParams :=
  { calendarId := calendarId
    showDeleted := true
    singleEvents := true
    maxResults := 250
    syncToken := if tokenPresent tok then tok else none
    timeMin := if tokenPresent tok then none else some (now - 30 * dayMs) }

/-- One observable side effect of the fetch: a provider call with its
parameters, a sync-token store write (`dbService.updateSyncToken`; `none`
clears the token), or a backoff sleep in milliseconds. -/
inductive FetchEvent where
  | listCall (p : ListParams)
  | tokenWrite (v : Option String)
  | sleep (ms : Nat)
deriving Repr, DecidableEq

/-- Fetch-side state: the stored sync token for this (user, calendar) and the
ordered trace of side effects so far. -/
structure FetchState where
  storedToken : Option String
  events : List FetchEvent
deriving Repr, DecidableEq

/-- Write the sync-token store (`dbService.updateSyncToken`), recording the
write in the trace. -/
def writeToken (st : FetchState) (v : Option String) : FetchState :=
  { storedToken := v, events := st.events ++ [FetchEvent.tokenWrite v] }

/-- `maxRetries` from `fetchIncrementalChanges`. -/
def maxRetries : Nat := 3

/-- The `while (attempt < maxRetries)` loop of `fetchIncrementalChanges`,
with `fuel = maxRetries - attempt` as the termination measure.  Per
iteration: read the stored token, issue `events.list`; on success persist a
truthy `nextSyncToken` and return the classified items; on a thrown error
increment `attempt`, clear the token and retry immediately when the error
signals cursor invalidity, otherwise rethrow once attempts are exhausted or
sleep `2^attempt` seconds and retry.  Fuel exhaustion is the loop falling
through to the trailing `return []`. -/
def fetchLoop (oracle : Nat → AttemptResult) (now : Int) (calendarId : String) :
    Nat → Nat → FetchState → Except ApiError (List CalendarChange) × FetchState
  | 0, _, st => (Except.ok [], st)
  | fuel + 1, attempt, st =>
      let tok := st.storedToken
      let st1 : FetchState :=
        { st with events := st.events ++ [FetchEvent.listCall (mkListParams calendarId now tok)] }
      match oracle attempt with
      | AttemptResult.ok items nst =>
          let st2 := if tokenPresent nst then writeToken st1 nst else st1
          (Except.ok (mapChanges items), st2)
      | AttemptResult.err e =>
          let a := attempt + 1
          if isSyncTokenInvalid e then
            let st2 := writeToken st1 none
            if a < maxRetries then
              fetchLoop oracle now calendarId fuel a st2
            else
              (Except.error e, st2)
          else
            if maxRetries ≤ a then
              (Except.error e, st1)
            else
              let st2 : FetchState :=
                { st1 with events := st1.events ++ [FetchEvent.sleep (2 ^ a * 1000)] }
              fetchLoop oracle now calendarId fuel a st2

/-- `WebhookHandler.fetchIncrementalChanges` for a given calendar id (the id
is derived upstream from the webhook's resource URI; no claim concerns that
derivation, so it is taken as a parameter).  Starts the retry loop at
`attempt = 0` with an empty trace and the token currently stored for the
(user, calendar) pair. -/
def fetchIncrementalChanges (oracle : Nat → AttemptResult) (now : Int)
    (calendarId : String) (storedToken : Option String) :
    Except ApiError (List CalendarChange) × FetchState :=
  fetchLoop oracle now calendarId maxRetries 0 { storedToken := storedToken, events := [] }

/-- The provider calls recorded in a trace. -/
def listCallsOf (evs : List FetchEvent) : List ListParams :=
  evs.filterMap fun ev =>
    match ev with
    | FetchEvent.listCall p => some p
    | _ => none

/-- The sync-token store writes recorded in a trace, in order. -/
def tokenWritesOf (evs : List FetchEvent) : List (Option String) :=
  evs.filterMap fun ev =>
    match ev with
    | FetchEvent.tokenWrite v => some v
    | _ => none

/-- The backoff sleeps recorded in a trace, in order (milliseconds). -/
def sleepsOf (evs : List FetchEvent) : List Nat :=
  evs.filterMap fun ev =>
    match ev with
    | FetchEvent.sleep ms => some ms
    | _ => none

/-! ## Memory-vault sink (`MemoryCalendarSync`) -/

/-- A stored memory as the search endpoint reports it; only its `id` is used
(to address the PUT/DELETE request). -/
structure MemoryRef where
  id : String
deriving Repr, DecidableEq

/-- The parsed search response: the HTTP `ok` flag and the optional
`memories` array of the JSON body. -/
structure SearchResp where
  ok : Bool
  memories : Option (List MemoryRef)
deriving Repr, DecidableEq

/-- Oracle for the vault's HTTP round trips during one record application:
the search GET (throw, or a parsed response), and the `ok` flags of the
DELETE, PUT and POST requests (each may also throw). -/
structure VaultOracle where
  search : Except ApiError SearchResp
  deleteOk : Except ApiError Bool
  putOk : Except ApiError Bool
  postOk : Except ApiError Bool
deriving Repr

/-- A vault request actually issued, in order. -/
inductive VaultOp where
  | searchOp
  | deleteOp (memoryId : String)
  | putOp (memoryId : String)
  | postOp
deriving Repr, DecidableEq

deriving instance DecidableEq for Except

/-- Result of a vault helper: the boolean it resolves to, or the error it
throws, together with the requests it issued. -/
structure VaultResult where
  result : Except ApiError Bool
  ops : List VaultOp
deriving Repr, DecidableEq

/-- A `try { ... } catch { return false }` wrapper: an exception becomes the
boolean `false`, the issued requests are unaffected. -/
def catchFalse (r : VaultResult) : VaultResult :=
  match r.result with
  | Except.error _ => { result := Except.ok false, ops := r.ops }
  | Except.ok b => { result := Except.ok b, ops := r.ops }

/-- The memory entry passed between the conversion and the vault helpers.
The presentation fields (content, title, tags, ...) are outside the sync
engine's scope per the spec and never inspected by the control flow; only the
event id and the change-type string are carried. -/
structure MemoryEntry where
  eventId : Option String
  changeType : String
deriving Repr, DecidableEq

/-- `convertEventToMemory`, restricted to the carried fields. -/
def convertEventToMemory (e : Event) (changeType : String) : MemoryEntry :=
  { eventId := e.id, changeType := changeType }

/-- Body of `storeInMemoryVault` (inside its `try`): POST the entry, resolve
to the response's `ok` flag. -/
def storeBody (o : VaultOracle) : VaultResult :=
  match o.postOk with
  | Except.error e => { result := Except.error e, ops := [VaultOp.postOp] }
  | Except.ok b => { result := Except.ok b, ops := [VaultOp.postOp] }

/-- `storeInMemoryVault`: the POST with its catch-all returning `false`. -/
def storeInMemoryVault (o : VaultOracle) (userId : String) (entry : MemoryEntry) : VaultResult :=
  catchFalse (storeBody o)

/-- Body of `updateInMemoryVault` (inside its `try`): search by event id;
when the search is `ok` and finds a memory, PUT it and resolve `true` when
the PUT is `ok`; in every non-returning case fall through to
`storeInMemoryVault`. -/
def updateBody (o : VaultOracle) (userId : String) (entry : MemoryEntry) : VaultResult :=
  match o.search with
  | Except.error e => { result := Except.error e, ops := [VaultOp.searchOp] }
  | Except.ok resp =>
      if resp.ok then
        match resp.memories with
        | some (mem :: _) =>
            (match o.putOk with
             | Except.error e =>
                 { result := Except.error e, ops := [VaultOp.searchOp, VaultOp.putOp mem.id] }
             | Except.ok true =>
                 { result := Except.ok true, ops := [VaultOp.searchOp, VaultOp.putOp mem.id] }
             | Except.ok false =>
                 let s := storeInMemoryVault o userId entry
                 { result := s.result, ops := [VaultOp.searchOp, VaultOp.putOp mem.id] ++ s.ops })
        | _ =>
            let s := storeInMemoryVault o userId entry
            { result := s.result, ops := VaultOp.searchOp :: s.ops }
      else
        let s := storeInMemoryVault o userId entry
        { result := s.result, ops := VaultOp.searchOp :: s.ops }

/-- `updateInMemoryVault`: the update flow with its catch-all returning
`false`. -/
def updateInMemoryVault (o : VaultOracle) (userId : String) (entry : MemoryEntry) : VaultResult :=
  catchFalse (updateBody o userId entry)

/-- Body of `removeFromMemoryVault` (inside its `try`): search by event id;
if the search is `ok` and finds a memory, DELETE it and resolve to whether
the DELETE was `ok`; if the search is `ok` and finds nothing, resolve `true`
("already doesn't exist"); if the search response is not `ok`, resolve
`false`. -/
def removeBody (o : VaultOracle) (userId : String) (eventId : Option String) : VaultResult :=
  match o.search with
  | Except.error e => { result := Except.error e, ops := [VaultOp.searchOp] }
  | Except.ok resp =>
      if resp.ok then
        match resp.memories with
        | some (mem :: _) =>
            (match o.deleteOk with
             | Except.error e =>
                 { result := Except.error e, ops := [VaultOp.searchOp, VaultOp.deleteOp mem.id] }
             | Except.ok b =>
                 { result := Except.ok b, ops := [VaultOp.searchOp, VaultOp.deleteOp mem.id] })
        | _ => { result := Except.ok true, ops := [VaultOp.searchOp] }
      else
        { result := Except.ok false, ops := [VaultOp.searchOp] }

/-- `removeFromMemoryVault`: the delete flow with its catch-all returning
`false`. -/
def removeFromMemoryVault (o : VaultOracle) (userId : String) (eventId : Option String) :
    VaultResult :=
  catchFalse (removeBody o userId eventId)

/-- `MemoryCalendarSync.processCalendarChange`: route deletions to
`removeFromMemoryVault`, otherwise convert the event and route updates to
`updateInMemoryVault` and creations to `storeInMemoryVault`; its own `try`
catches anything escaping the helpers and returns `false`. -/
def processCalendarChange (o : VaultOracle) (userId : String) (e : Event) (ct : ChangeType) :
    VaultResult :=
  catchFalse
    (match ct with
     | ChangeType.deleted => removeFromMemoryVault o userId e.id
     | ChangeType.updated => updateInMemoryVault o userId (convertEventToMemory e "updated")
     | ChangeType.created => storeInMemoryVault o userId (convertEventToMemory e "created"))

/-- The boolean the caller of `processCalendarChange` awaits (the function
resolves to a boolean for every oracle; an error branch is included only so
the extraction is total). -/
def resultBool (r : VaultResult) : Bool :=
  match r.result with
  | Except.ok b => b
  | Except.error _ => false

/-! ## Orchestrator (`doProcessWebhook`) -/

/-- One `dbService.updateCalendarConnection` call: the partial row update it
passes (`sync_status` and/or `last_sync_at`). -/
structure ConnUpdate where
  sync_status : Option String
  last_sync_at : Option Int
deriving Repr, DecidableEq

/-- The per-change application loop of `doProcessWebhook`: each change is
applied through `MemoryCalendarSync.processCalendarChange` (the i-th change
with the i-th sink oracle) and successes are counted; a `false` never aborts
the remaining changes. -/
def applyChanges (sinkO : Nat → VaultOracle) (userId : String) :
    List CalendarChange → Nat → Nat
  | [], _ => 0
  | c :: rest, i =>
      (if resultBool (processCalendarChange (sinkO i) userId c.event c.changeType) then 1 else 0) +
        applyChanges sinkO userId rest (i + 1)

/-- Everything one orchestration run observes and writes. -/
structure RunResult where
  fetched : Except ApiError (List CalendarChange)
  fetchState : FetchState
  successCount : Nat
  connWrites : List ConnUpdate
deriving Repr

/-- `WebhookHandler.doProcessWebhook`: fetch the incremental changes; on zero
changes return with no status write; otherwise apply every change, count
successes, and write `sync_status = 'synced'` when all succeeded else
`'partial_sync'`, always with `last_sync_at = now`.  A thrown fetch error is
caught, `sync_status = 'error'` is written, and `scheduleFullSync` then
writes `sync_status = 'scheduled_full_sync'` (both with `last_sync_at`);
`scheduleFullSync` swallows its own errors and performs exactly that one
connection write. -/
def doProcessWebhook (fetchO : Nat → AttemptResult) (sinkO : Nat → VaultOracle)
    (now : Int) (userId calendarId : String) (storedToken : Option String) : RunResult :=
  let p := fetchIncrementalChanges fetchO now calendarId storedToken
  match p.1 with
  | Except.error e =>
      { fetched := Except.error e
        fetchState := p.2
        successCount := 0
        connWrites :=
          [{ sync_status := some "error", last_sync_at := some now },
           { sync_status := some "scheduled_full_sync", last_sync_at := some now }] }
  | Except.ok changes =>
      if changes.isEmpty then
        { fetched := Except.ok changes, fetchState := p.2, successCount := 0, connWrites := [] }
      else
        let k := applyChanges sinkO userId changes 0
        { fetched := Except.ok changes
          fetchState := p.2
          successCount := k
          connWrites :=
            [{ sync_status := some (if k = changes.length then "synced" else "partial_sync")
               last_sync_at := some now }] }

/-! ## Full sync (`performFullSync`) -/

/-- One page of the paged `events.list` response during full sync. -/
structure Page where
  items : List Event
  nextPageToken : Option String
deriving Repr, DecidableEq

/-- Oracle for one calendar during full sync: its id (`calendarItem.id`), the
successive responses to the paged `events.list` calls, and the outcome of the
final `maxResults: 1` cursor-refresh call (its `nextSyncToken` or a thrown
error). -/
structure CalOracle where
  calendarId : String
  pages : List (Except ApiError Page)
  refresh : Except ApiError (Option String)
deriving Repr

/-- An observable side effect of the full sync. `listCall` records a paged
`events.list` request with its `timeMin`/`timeMax` window and page token;
`applied` records one `processCalendarChange` invocation; `refreshCall` is
the trailing `maxResults: 1` request; `tokenWrite` is a
`dbService.updateSyncToken` call. -/
inductive FSEvent where
  | listCall (calendarId : String) (timeMin timeMax : Int) (pageToken : Option String)
  | applied (calendarId : String) (e : Event) (ct : ChangeType)
  | refreshCall (calendarId : String)
  | tokenWrite (calendarId : String) (v : Option String)
deriving Repr, DecidableEq

/-- The `do { ... } while (pageToken)` loop over one calendar: issue the next
paged request, apply every returned event as `'created'`, and continue while
the response carries a truthy `nextPageToken`.  `apply` abstracts the boolean
`processCalendarChange` resolves to for each event (that call resolves to a
boolean for every oracle).  The returned flag records whether a
request threw (aborting this calendar's `try` block); an exhausted oracle is
treated the same way.  Applications made before the abort remain in the
trace and in the count, as their side effects already happened. -/
def pageLoop (apply : Event → Bool) (cid : String) (timeMin timeMax : Int)
    (pageToken : Option String) :
    List (Except ApiError Page) → List FSEvent × Nat × Bool
  | [] => ([], 0, true)
  | Except.error _ :: _ => ([FSEvent.listCall cid timeMin timeMax pageToken], 0, true)
  | Except.ok page :: rest =>
      let tr := FSEvent.listCall cid timeMin timeMax pageToken ::
        page.items.map fun ev => FSEvent.applied cid ev ChangeType.created
      let cnt := (page.items.filter apply).length
      if tokenPresent page.nextPageToken then
        let r := pageLoop apply cid timeMin timeMax page.nextPageToken rest
        (tr ++ r.1, cnt + r.2.1, r.2.2)
      else
        (tr, cnt, false)

/-- The per-calendar body of `performFullSync` (one iteration of the calendar
loop, including its `try/catch`): page through `[now − 30d, now + 365d]`,
then — only when paging completed without a throw — issue the single
cursor-refresh call and persist a truthy `nextSyncToken`; a throw anywhere is
caught and ends only this calendar's processing. -/
def syncCalendar (apply : Event → Bool) (now : Int) (cal : CalOracle) :
    List FSEvent × Nat :=
  let timeMin := now - 30 * dayMs
  let timeMax := now + 365 * dayMs
  let r := pageLoop apply cal.calendarId timeMin timeMax none cal.pages
  if r.2.2 then
    (r.1, r.2.1)
  else
    match cal.refresh with
    | Except.error _ => (r.1 ++ [FSEvent.refreshCall cal.calendarId], r.2.1)
    | Except.ok nst =>
        (r.1 ++ [FSEvent.refreshCall cal.calendarId] ++
          (if tokenPresent nst then [FSEvent.tokenWrite cal.calendarId nst] else []),
         r.2.1)

/-- `WebhookHandler.performFullSync`: list the user's calendars (`Except.error`
covers a missing auth client or a thrown list call, `none` a response with no
items, which returns `true` without a status write); process each calendar
independently; finally write `sync_status = 'synced'` and return `true`, or
on a top-level throw write `'error'` and return `false`. -/
def performFullSync (apply : Event → Bool)
    (calendarList : Except ApiError (Option (List CalOracle))) (now : Int) :
    List FSEvent × List ConnUpdate × Bool :=
  match calendarList with
  | Except.error _ =>
      ([], [{ sync_status := some "error", last_sync_at := some now }], false)
  | Except.ok none => ([], [], true)
  | Except.ok (some cals) =>
      ((cals.map (syncCalendar apply now)).flatMap Prod.fst,
       [{ sync_status := some "synced", last_sync_at := some now }],
       true)

/-- The applications recorded for one calendar, in order. -/
def appliedOf (cid : String) (tr : List FSEvent) : List (Event × ChangeType) :=
  tr.filterMap fun ev =>
    match ev with
    | FSEvent.applied c e ct => if c = cid then some (e, ct) else none
    | _ => none

/-- How many cursor-refresh calls a trace holds for one calendar. -/
def refreshCallsOf (cid : String) (tr : List FSEvent) : Nat :=
  tr.countP fun ev =>
    match ev with
    | FSEvent.refreshCall c => c == cid
    | _ => false

/-! ## Theorems -/

/-- A `try/catch` returning `false` always resolves to a boolean. -/
theorem catchFalse_ok (r : VaultResult) : ∃ b, (catchFalse r).result = Except.ok b := by
  cases h : r.result with
  | error e => exact ⟨false, by simp [catchFalse, h]⟩
  | ok b => exact ⟨b, by simp [catchFalse, h]⟩

/-- C4: the change classifier returns `deleted` for every event whose status
is `"cancelled"` regardless of its timestamps, `created` for every
non-cancelled event whose created and updated timestamps are equal, and
`updated` for every other event. -/
theorem determineChangeType_claim (e : Event) :
    (e.status = some "cancelled" → determineChangeType e = ChangeType.deleted) ∧
    (e.status ≠ some "cancelled" → e.created = e.updated →
      determineChangeType e = ChangeType.created) ∧
    (e.status ≠ some "cancelled" → e.created ≠ e.updated →
      determineChangeType e = ChangeType.updated) := by
  refine ⟨fun h => ?_, fun h1 h2 => ?_, fun h1 h2 => ?_⟩ <;>
    simp_all [determineChangeType]

/-- C4 witness: a cancelled event with distinct timestamps is `deleted`, a
fresh event with equal timestamps is `created`, a touched event is
`updated`. -/
theorem determineChangeType_witness :
    determineChangeType
        { id := some "e", status := some "cancelled", created := some "a", updated := some "b" } =
      ChangeType.deleted ∧
    determineChangeType
        { id := some "e", status := some "confirmed", created := some "a", updated := some "a" } =
      ChangeType.created ∧
    determineChangeType
        { id := some "e", status := some "confirmed", created := some "a", updated := some "b" } =
      ChangeType.updated :=
  ⟨(determineChangeType_claim _).1 rfl,
   (determineChangeType_claim _).2.1 (by simp) rfl,
   (determineChangeType_claim _).2.2 (by simp) (by simp)⟩

/-- C2: a trigger for a key already in flight is dropped without running any
work and leaves the registry unchanged; a trigger for a free key runs, holds
the key while running, and deregisters it on completion whether the run
succeeds or throws. -/
theorem processWebhookAsync_claim (queue : List String) (userId channelId : String)
    (outcome : RunOutcome) :
    (processingKey userId channelId ∈ queue →
      (processWebhookAsync queue userId channelId outcome).ran = false ∧
      (processWebhookAsync queue userId channelId outcome).after = queue) ∧
    (processingKey userId channelId ∉ queue →
      (processWebhookAsync queue userId channelId outcome).ran = true ∧
      processingKey userId channelId ∈ (processWebhookAsync queue userId channelId outcome).during ∧
      (processWebhookAsync queue userId channelId outcome).after = queue ∧
      processingKey userId channelId ∉ (processWebhookAsync queue userId channelId outcome).after) := by
  constructor
  · intro h
    simp [processWebhookAsync, h]
  · intro h
    cases outcome <;> simp [processWebhookAsync, h, List.erase_cons_head]

/-- C2 witness: with `u_c` in flight a second trigger is dropped and the
registry is untouched; with an empty registry a failing run executes and the
key is gone afterwards. -/
theorem processWebhookAsync_witness :
    (("u_c" : String) ∈ ["u_c"] ∧
      (processWebhookAsync ["u_c"] "u" "c" RunOutcome.success).ran = false ∧
      (processWebhookAsync ["u_c"] "u" "c" RunOutcome.success).after = ["u_c"]) ∧
    (("u_c" : String) ∉ ([] : List String) ∧
      (processWebhookAsync [] "u" "c" RunOutcome.failure).ran = true ∧
      ("u_c" : String) ∉ (processWebhookAsync [] "u" "c" RunOutcome.failure).after) :=
  ⟨⟨by simp,
    ((processWebhookAsync_claim ["u_c"] "u" "c" RunOutcome.success).1 (by simp [processingKey])).1,
    ((processWebhookAsync_claim ["u_c"] "u" "c" RunOutcome.success).1 (by simp [processingKey])).2⟩,
   ⟨by simp,
    ((processWebhookAsync_claim [] "u" "c" RunOutcome.failure).2 (by simp)).1,
    ((processWebhookAsync_claim [] "u" "c" RunOutcome.failure).2 (by simp)).2.2.2⟩⟩

/-- C10: applying one change record is total at the boolean interface: for
every sink oracle it resolves to a boolean, never an exception; in
particular, when every vault round trip throws, it resolves to `false`. -/
theorem processCalendarChange_total_claim (o : VaultOracle) (userId : String) (e : Event)
    (ct : ChangeType) :
    (∃ b, (processCalendarChange o userId e ct).result = Except.ok b) ∧
    (∀ er : ApiError,
      (processCalendarChange
          { search := Except.error er, deleteOk := Except.error er,
            putOk := Except.error er, postOk := Except.error er }
          userId e ct).result = Except.ok false) := by
  refine ⟨catchFalse_ok _, fun er => ?_⟩
  cases ct <;> rfl

/-- C9: deleting an event with no matching entry in the vault succeeds when
the lookup itself responds `ok`: the call resolves `true` and issues only the
search request, so the sink is left unchanged and a repeated delete still
succeeds. -/
theorem removeFromMemoryVault_claim (o : VaultOracle) (userId : String)
    (eventId : Option String) (resp : SearchResp) (hs : o.search = Except.ok resp)
    (hok : resp.ok = true) (hempty : resp.memories = none ∨ resp.memories = some []) :
    removeFromMemoryVault o userId eventId =
      { result := Except.ok true, ops := [VaultOp.searchOp] } := by
  unfold removeFromMemoryVault removeBody
  rw [hs]
  rcases hempty with h | h <;> simp [hok, h, catchFalse]

/-- C9 witness: a concrete oracle whose search responds `ok` with an empty
result list yields success and no delete request. -/
theorem removeFromMemoryVault_witness :
    ((VaultOracle.mk (Except.ok { ok := true, memories := some [] })
        (Except.ok true) (Except.ok true) (Except.ok true)).search =
      Except.ok { ok := true, memories := some ([] : List MemoryRef) }) ∧
    removeFromMemoryVault
        (VaultOracle.mk (Except.ok { ok := true, memories := some [] })
          (Except.ok true) (Except.ok true) (Except.ok true)) "u" (some "ev") =
      { result := Except.ok true, ops := [VaultOp.searchOp] } :=
  ⟨rfl, removeFromMemoryVault_claim _ "u" (some "ev") _ rfl rfl (Or.inr rfl)⟩

/-- Each loop iteration issues at most one provider call, so a run with
`fuel` remaining iterations adds at most `fuel` calls to the trace. -/
theorem fetchLoop_calls_le (oracle : Nat → AttemptResult) (now : Int) (cid : String) :
    ∀ fuel attempt st,
      (listCallsOf (fetchLoop oracle now cid fuel attempt st).2.events).length ≤
        (listCallsOf st.events).length + fuel := by
  intro fuel
  induction fuel with
  | zero => intro attempt st; simp [fetchLoop]
  | succ n ih =>
      intro attempt st
      cases h : oracle attempt with
      | ok items nst =>
          by_cases hp : tokenPresent nst = true <;>
            simp [fetchLoop, h, hp, writeToken, listCallsOf, List.filterMap_append]
      | err e =>
          by_cases hinv : isSyncTokenInvalid e = true
          · by_cases hlt : attempt + 1 < maxRetries
            · simp only [fetchLoop, h, hinv, hlt, if_true, writeToken]
              refine le_trans (ih (attempt + 1) _) ?_
              simp [listCallsOf, List.filterMap_append]
              omega
            · simp [fetchLoop, h, hinv, hlt, writeToken, listCallsOf, List.filterMap_append]
          · by_cases hge : maxRetries ≤ attempt + 1
            · simp [fetchLoop, h, hinv, hge, listCallsOf, List.filterMap_append]
            · simp only [fetchLoop, h, hinv, hge, if_true, if_false, Bool.false_eq_true]
              refine le_trans (ih (attempt + 1) _) ?_
              simp [listCallsOf, List.filterMap_append]
              omega

/-- C5: the incremental fetch issues at most 3 provider calls; when the first
two attempts fail transiently and the third succeeds, the successful change
list is returned, exactly the two backoff sleeps `2^1` s and `2^2` s occur,
and the only sync-token write is the successful response's (none from the
failed attempts); when all three attempts fail transiently the last error is
propagated. -/
theorem fetchIncrementalChanges_retry_claim (oracle : Nat → AttemptResult) (now : Int)
    (calendarId : String) (tok0 : Option String) :
    (listCallsOf (fetchIncrementalChanges oracle now calendarId tok0).2.events).length ≤ 3 ∧
    (∀ e0 e1 items nst,
      oracle 0 = AttemptResult.err e0 → isSyncTokenInvalid e0 = false →
      oracle 1 = AttemptResult.err e1 → isSyncTokenInvalid e1 = false →
      oracle 2 = AttemptResult.ok items nst →
      (fetchIncrementalChanges oracle now calendarId tok0).1 = Except.ok (mapChanges items) ∧
      sleepsOf (fetchIncrementalChanges oracle now calendarId tok0).2.events = [2000, 4000] ∧
      tokenWritesOf (fetchIncrementalChanges oracle now calendarId tok0).2.events =
        (if tokenPresent nst then [nst] else [])) ∧
    (∀ e0 e1 e2,
      oracle 0 = AttemptResult.err e0 → isSyncTokenInvalid e0 = false →
      oracle 1 = AttemptResult.err e1 → isSyncTokenInvalid e1 = false →
      oracle 2 = AttemptResult.err e2 → isSyncTokenInvalid e2 = false →
      (fetchIncrementalChanges oracle now calendarId tok0).1 = Except.error e2) := by
  refine ⟨?_, ?_, ?_⟩
  · simpa [fetchIncrementalChanges, listCallsOf] using
      fetchLoop_calls_le oracle now calendarId maxRetries 0
        { storedToken := tok0, events := [] }
  · intro e0 e1 items nst h0 hv0 h1 hv1 h2
    by_cases hp : tokenPresent nst = true <;>
      simp [fetchIncrementalChanges, fetchLoop, maxRetries, h0, hv0, h1, hv1, h2, hp,
        writeToken, sleepsOf, tokenWritesOf, List.filterMap_append]
  · intro e0 e1 e2 h0 hv0 h1 hv1 h2 hv2
    simp [fetchIncrementalChanges, fetchLoop, maxRetries, h0, hv0, h1, hv1, h2, hv2]

/-- Transient retry oracle: the first two attempts throw a rate-limit-style
error, the third succeeds. -/
def retryOracle : Nat → AttemptResult := fun n =>
  if n = 2 then AttemptResult.ok [] (some "T")
  else AttemptResult.err { code := some 500, message := none }

/-- Oracle on which every attempt throws a transient error. -/
def failOracle : Nat → AttemptResult := fun _ =>
  AttemptResult.err { code := some 500, message := none }

/-- C5 witness: on the two-transient-failures-then-success oracle the fetch
returns the third attempt's (empty) change list after exactly the sleeps
2 s and 4 s, persisting only the fresh token; on the always-failing oracle
the error is propagated. -/
theorem fetchIncrementalChanges_retry_witness :
    isSyncTokenInvalid { code := some 500, message := none } = false ∧
    retryOracle 2 = AttemptResult.ok [] (some "T") ∧
    (fetchIncrementalChanges retryOracle 0 "cal" none).1 = Except.ok (mapChanges []) ∧
    sleepsOf (fetchIncrementalChanges retryOracle 0 "cal" none).2.events = [2000, 4000] ∧
    tokenWritesOf (fetchIncrementalChanges retryOracle 0 "cal" none).2.events = [some "T"] ∧
    (fetchIncrementalChanges failOracle 0 "cal" none).1 =
      Except.error { code := some 500, message := none } := by
  have h2 := (fetchIncrementalChanges_retry_claim retryOracle 0 "cal" none).2.1
    { code := some 500, message := none } { code := some 500, message := none } [] (some "T")
    rfl rfl rfl rfl rfl
  have h3 := (fetchIncrementalChanges_retry_claim failOracle 0 "cal" none).2.2
    { code := some 500, message := none } { code := some 500, message := none }
    { code := some 500, message := none } rfl rfl rfl rfl rfl rfl
  refine ⟨rfl, rfl, h2.1, h2.2.1, ?_, h3⟩
  rw [h2.2.2]
  rfl

/-- C6: with a stored cursor, a cursor-invalidity error on the first attempt
clears the stored token (a `none` write) before any retry, and the retry
requests without a sync token using the `now − 30 d` window; when the retry
succeeds within the attempt budget the caller sees the successful result,
not the invalidation. -/
theorem fetchIncrementalChanges_cursor_invalid_claim (oracle : Nat → AttemptResult)
    (now : Int) (calendarId : String) (t : String) (e0 : ApiError) (items : List Event)
    (nst : Option String) (ht : t ≠ "")
    (h0 : oracle 0 = AttemptResult.err e0) (hinv : isSyncTokenInvalid e0 = true)
    (h1 : oracle 1 = AttemptResult.ok items nst) :
    (fetchIncrementalChanges oracle now calendarId (some t)).1 = Except.ok (mapChanges items) ∧
    (fetchIncrementalChanges oracle now calendarId (some t)).2.events =
      [FetchEvent.listCall
          { calendarId := calendarId, showDeleted := true, singleEvents := true,
            maxResults := 250, syncToken := some t, timeMin := none },
       FetchEvent.tokenWrite none,
       FetchEvent.listCall
          { calendarId := calendarId, showDeleted := true, singleEvents := true,
            maxResults := 250, syncToken := none, timeMin := some (now - 30 * dayMs) }] ++
        (if tokenPresent nst then [FetchEvent.tokenWrite nst] else []) := by
  have ht' : tokenPresent (some t) = true := by simp [tokenPresent, ht]
  have hnone : tokenPresent none = false := rfl
  by_cases hp : tokenPresent nst = true <;>
    simp [fetchIncrementalChanges, fetchLoop, maxRetries, h0, h1, hinv, writeToken,
      mkListParams, ht', hp, hnone]

/-- Oracle whose first attempt throws HTTP 410 and whose retry succeeds with
no items. -/
def invalidOracle : Nat → AttemptResult := fun n =>
  if n = 0 then AttemptResult.err { code := some 410, message := none }
  else AttemptResult.ok [] none

/-- C6 witness: on the 410-then-success oracle, starting from stored token
`"tok"`, the run returns the retry's result and its trace is exactly: a call
with the cursor, the clearing write, and a cursor-less call with the 30-day
window. -/
theorem fetchIncrementalChanges_cursor_invalid_witness :
    ("tok" : String) ≠ "" ∧
    isSyncTokenInvalid { code := some 410, message := none } = true ∧
    (fetchIncrementalChanges invalidOracle 0 "cal" (some "tok")).1 =
      Except.ok (mapChanges []) ∧
    (fetchIncrementalChanges invalidOracle 0 "cal" (some "tok")).2.events =
      [FetchEvent.listCall
          { calendarId := "cal", showDeleted := true, singleEvents := true,
            maxResults := 250, syncToken := some "tok", timeMin := none },
       FetchEvent.tokenWrite none,
       FetchEvent.listCall
          { calendarId := "cal", showDeleted := true, singleEvents := true,
            maxResults := 250, syncToken := none, timeMin := some (0 - 30 * dayMs) }] := by
  have h := fetchIncrementalChanges_cursor_invalid_claim invalidOracle 0 "cal" "tok"
    { code := some 410, message := none } [] none (by decide) rfl rfl rfl
  refine ⟨by decide, rfl, h.1, ?_⟩
  rw [h.2]
  rfl

/-- C7: whenever an attempt's response carries a truthy `nextSyncToken`, the
fetch persists it to the sync-token store before returning — the write is in
the returned trace and the stored token equals it — including when the
response carries zero changed events (`items` is arbitrary, in particular
empty). -/
theorem fetchLoop_persists_token_claim (oracle : Nat → AttemptResult) (now : Int)
    (calendarId : String) (fuel attempt : Nat) (st : FetchState)
    (items : List Event) (nst : String)
    (h : oracle attempt = AttemptResult.ok items (some nst)) (hp : nst ≠ "") :
    (fetchLoop oracle now calendarId (fuel + 1) attempt st).1 =
      Except.ok (mapChanges items) ∧
    FetchEvent.tokenWrite (some nst) ∈
      (fetchLoop oracle now calendarId (fuel + 1) attempt st).2.events ∧
    (fetchLoop oracle now calendarId (fuel + 1) attempt st).2.storedToken = some nst := by
  have hp' : tokenPresent (some nst) = true := by simp [tokenPresent, hp]
  simp [fetchLoop, h, hp', writeToken]

/-- C7 witness: a first-attempt success carrying token `"T"` and zero items
persists `"T"` and returns the empty change list. -/
theorem fetchLoop_persists_token_witness :
    ((fun _ => AttemptResult.ok ([] : List Event) (some "T")) 0 =
      AttemptResult.ok ([] : List Event) (some "T")) ∧
    ("T" : String) ≠ "" ∧
    (fetchLoop (fun _ => AttemptResult.ok [] (some "T")) 0 "cal" (2 + 1) 0
        { storedToken := none, events := [] }).1 = Except.ok (mapChanges []) ∧
    FetchEvent.tokenWrite (some "T") ∈
      (fetchLoop (fun _ => AttemptResult.ok [] (some "T")) 0 "cal" (2 + 1) 0
        { storedToken := none, events := [] }).2.events ∧
    (fetchLoop (fun _ => AttemptResult.ok [] (some "T")) 0 "cal" (2 + 1) 0
        { storedToken := none, events := [] }).2.storedToken = some "T" := by
  have h := fetchLoop_persists_token_claim (fun _ => AttemptResult.ok [] (some "T")) 0 "cal"
    2 0 { storedToken := none, events := [] } [] "T" rfl (by decide)
  exact ⟨rfl, by decide, h.1, h.2.1, h.2.2⟩

/-- A vault oracle on which every round trip succeeds (the search finds
nothing, so creations go through the POST). -/
def okVault : VaultOracle :=
  { search := Except.ok { ok := true, memories := some [] }
    deleteOk := Except.ok true
    putOk := Except.ok true
    postOk := Except.ok true }

/-- A freshly created event (equal timestamps, not cancelled). -/
def evCreated : Event :=
  { id := some "e1", status := some "confirmed", created := some "c", updated := some "c" }

/-- C1 counterexample: a run fetching one change and applying it successfully
(K = N = 1) writes terminal status `synced`, not `active` — no write of the
run carries status `active`. -/
theorem doProcessWebhook_active_counterexample :
    (doProcessWebhook (fun _ => AttemptResult.ok [evCreated] (some "t")) (fun _ => okVault)
        0 "u" "cal" none).successCount = 1 ∧
    (doProcessWebhook (fun _ => AttemptResult.ok [evCreated] (some "t")) (fun _ => okVault)
        0 "u" "cal" none).fetched =
      Except.ok [{ event := evCreated, changeType := ChangeType.created }] ∧
    (doProcessWebhook (fun _ => AttemptResult.ok [evCreated] (some "t")) (fun _ => okVault)
        0 "u" "cal" none).connWrites =
      [{ sync_status := some "synced", last_sync_at := some 0 }] ∧
    ((doProcessWebhook (fun _ => AttemptResult.ok [evCreated] (some "t")) (fun _ => okVault)
        0 "u" "cal" none).connWrites.all fun w => w.sync_status != some "active") = true :=
  ⟨rfl, rfl, rfl, rfl⟩

/-- C1 (amended: the all-succeeded status value is `synced`, not `active`):
for a run fetching N > 0 changes with K application successes, the terminal
connection write is `synced` with the last-sync timestamp when K = N and
`partial_sync` with the timestamp when K < N; a fetch error propagated out of
the retry loop yields the `error` write followed by the scheduled-full-sync
marker. -/
theorem doProcessWebhook_terminal_status_claim (fetchO : Nat → AttemptResult)
    (sinkO : Nat → VaultOracle) (now : Int) (userId calendarId : String)
    (storedToken : Option String) :
    (∀ changes fst,
      fetchIncrementalChanges fetchO now calendarId storedToken = (Except.ok changes, fst) →
      changes ≠ [] →
      ((applyChanges sinkO userId changes 0 = changes.length →
        (doProcessWebhook fetchO sinkO now userId calendarId storedToken).connWrites =
          [{ sync_status := some "synced", last_sync_at := some now }]) ∧
       (applyChanges sinkO userId changes 0 < changes.length →
        (doProcessWebhook fetchO sinkO now userId calendarId storedToken).connWrites =
          [{ sync_status := some "partial_sync", last_sync_at := some now }]))) ∧
    (∀ e fst,
      fetchIncrementalChanges fetchO now calendarId storedToken = (Except.error e, fst) →
      (doProcessWebhook fetchO sinkO now userId calendarId storedToken).connWrites =
        [{ sync_status := some "error", last_sync_at := some now },
         { sync_status := some "scheduled_full_sync", last_sync_at := some now }]) := by
  constructor
  · intro changes fst h hne
    constructor
    · intro hk
      simp [doProcessWebhook, h, hne, hk]
    · intro hk
      have hne' : applyChanges sinkO userId changes 0 ≠ changes.length := Nat.ne_of_lt hk
      simp [doProcessWebhook, h, hne, hne']
  · intro e fst h
    simp [doProcessWebhook, h]

/-- C1 witness: the all-success branch on a concrete one-change run, and the
failure branch on the always-failing oracle. -/
theorem doProcessWebhook_terminal_status_witness :
    (fetchIncrementalChanges (fun _ => AttemptResult.ok [evCreated] (some "t")) 0 "cal" none).1 =
      Except.ok [{ event := evCreated, changeType := ChangeType.created }] ∧
    applyChanges (fun _ => okVault) "u" [{ event := evCreated, changeType := ChangeType.created }] 0 = 1 ∧
    (doProcessWebhook (fun _ => AttemptResult.ok [evCreated] (some "t")) (fun _ => okVault)
        0 "u" "cal" none).connWrites =
      [{ sync_status := some "synced", last_sync_at := some 0 }] ∧
    (doProcessWebhook failOracle (fun _ => okVault) 0 "u" "cal" none).connWrites =
      [{ sync_status := some "error", last_sync_at := some 0 },
       { sync_status := some "scheduled_full_sync", last_sync_at := some 0 }] := by
  have hs := ((doProcessWebhook_terminal_status_claim
      (fun _ => AttemptResult.ok [evCreated] (some "t")) (fun _ => okVault) 0 "u" "cal" none).1
      [{ event := evCreated, changeType := ChangeType.created }]
      (fetchIncrementalChanges (fun _ => AttemptResult.ok [evCreated] (some "t")) 0 "cal" none).2
      rfl (by simp)).1 rfl
  have he := (doProcessWebhook_terminal_status_claim failOracle (fun _ => okVault)
      0 "u" "cal" none).2 { code := some 500, message := none }
      (fetchIncrementalChanges failOracle 0 "cal" none).2 rfl
  exact ⟨rfl, rfl, hs, he⟩

/-- C3 counterexample: a run whose fetch fails after exhausting its attempts
performs two terminal connection-status writes (`error`, then
`scheduled_full_sync`), not exactly one. -/
theorem doProcessWebhook_single_write_counterexample :
    (doProcessWebhook failOracle (fun _ => okVault) 0 "u" "cal" none).connWrites.length = 2 ∧
    (doProcessWebhook failOracle (fun _ => okVault) 0 "u" "cal" none).connWrites.length ≠ 1 :=
  ⟨rfl, by decide⟩

/-- C3 (amended: the write count depends on the outcome): a run that fetches
zero changes performs no connection-status write; a run that fetches a
nonempty change list and completes performs exactly one; a run whose fetch
throws performs exactly two, `error` followed by `scheduled_full_sync`. -/
theorem doProcessWebhook_write_discipline_claim (fetchO : Nat → AttemptResult)
    (sinkO : Nat → VaultOracle) (now : Int) (userId calendarId : String)
    (storedToken : Option String) :
    (∀ fst,
      fetchIncrementalChanges fetchO now calendarId storedToken = (Except.ok [], fst) →
      (doProcessWebhook fetchO sinkO now userId calendarId storedToken).connWrites = []) ∧
    (∀ changes fst,
      fetchIncrementalChanges fetchO now calendarId storedToken = (Except.ok changes, fst) →
      changes ≠ [] →
      (doProcessWebhook fetchO sinkO now userId calendarId storedToken).connWrites.length = 1) ∧
    (∀ e fst,
      fetchIncrementalChanges fetchO now calendarId storedToken = (Except.error e, fst) →
      (doProcessWebhook fetchO sinkO now userId calendarId storedToken).connWrites.map
          ConnUpdate.sync_status =
        [some "error", some "scheduled_full_sync"]) := by
  refine ⟨?_, ?_, ?_⟩
  · intro fst h
    simp [doProcessWebhook, h]
  · intro changes fst h hne
    simp [doProcessWebhook, h, hne]
  · intro e fst h
    simp [doProcessWebhook, h]

/-- Oracle whose first attempt succeeds with no changes and no fresh token. -/
def emptyOracle : Nat → AttemptResult := fun _ => AttemptResult.ok [] none

/-- C3 witness: zero writes on the no-change run, one write on the one-change
run, and the `error`/`scheduled_full_sync` pair on the failing run. -/
theorem doProcessWebhook_write_discipline_witness :
    (doProcessWebhook emptyOracle (fun _ => okVault) 0 "u" "cal" none).connWrites = [] ∧
    (doProcessWebhook (fun _ => AttemptResult.ok [evCreated] (some "t")) (fun _ => okVault)
        0 "u" "cal" none).connWrites.length = 1 ∧
    (doProcessWebhook failOracle (fun _ => okVault) 0 "u" "cal" none).connWrites.map
        ConnUpdate.sync_status =
      [some "error", some "scheduled_full_sync"] := by
  have h0 := (doProcessWebhook_write_discipline_claim emptyOracle (fun _ => okVault)
      0 "u" "cal" none).1 (fetchIncrementalChanges emptyOracle 0 "cal" none).2 rfl
  have h1 := (doProcessWebhook_write_discipline_claim
      (fun _ => AttemptResult.ok [evCreated] (some "t")) (fun _ => okVault) 0 "u" "cal" none).2.1
      [{ event := evCreated, changeType := ChangeType.created }]
      (fetchIncrementalChanges (fun _ => AttemptResult.ok [evCreated] (some "t")) 0 "cal" none).2
      rfl (by simp)
  have h2 := (doProcessWebhook_write_discipline_claim failOracle (fun _ => okVault)
      0 "u" "cal" none).2.2 { code := some 500, message := none }
      (fetchIncrementalChanges failOracle 0 "cal" none).2 rfl
  exact ⟨h0, h1, h2⟩

/-- Selecting a calendar's applications from a block of its own application
events recovers the applied pairs. -/
theorem filterMap_comp_applied (cid : String) (l : List Event) (ct : ChangeType) :
    List.filterMap
        ((fun ev =>
            match ev with
            | FSEvent.applied c e ctt => if c = cid then some (e, ctt) else none
            | _ => none) ∘
          fun ev => FSEvent.applied cid ev ct) l = l.map fun e => (e, ct) := by
  induction l with
  | nil => rfl
  | cons a l ih => simpa [List.filterMap_cons, Function.comp] using ih

/-- A block of application events contains no cursor-refresh call. -/
theorem countP_comp_refresh (cid cid2 : String) (l : List Event) (ct : ChangeType) :
    List.countP
        ((fun ev =>
            match ev with
            | FSEvent.refreshCall c => c == cid
            | _ => false) ∘
          fun ev => FSEvent.applied cid2 ev ct) l = 0 := by
  induction l with
  | nil => rfl
  | cons a l ih => simp [List.countP_cons, Function.comp, ih]

/-- C8: during a full sync, a calendar whose feed spans two pages (the first
carrying a continuation token, the second not) has every event of both pages
applied as `created`, gets exactly one cursor-refresh call whose fresh token
is persisted, and all paged requests use the `[now − 30 d, now + 365 d]`
window; a calendar whose first page request throws does not prevent any of
this (failure on one calendar is isolated). -/
theorem performFullSync_claim (apply : Event → Bool) (now : Int) (bad good : CalOracle)
    (ebad : ApiError) (brest : List (Except ApiError Page)) (p1 p2 : Page) (nst : String)
    (hb : bad.pages = Except.error ebad :: brest)
    (hg : good.pages = [Except.ok p1, Except.ok p2])
    (h1 : tokenPresent p1.nextPageToken = true)
    (h2 : tokenPresent p2.nextPageToken = false)
    (hr : good.refresh = Except.ok (some nst)) (hn : nst ≠ "") :
    appliedOf good.calendarId (performFullSync apply (Except.ok (some [bad, good])) now).1 =
      (p1.items ++ p2.items).map (fun e => (e, ChangeType.created)) ∧
    refreshCallsOf good.calendarId
        (performFullSync apply (Except.ok (some [bad, good])) now).1 = 1 ∧
    FSEvent.tokenWrite good.calendarId (some nst) ∈
      (performFullSync apply (Except.ok (some [bad, good])) now).1 ∧
    (∀ c tmin tmax ptok,
      FSEvent.listCall c tmin tmax ptok ∈
          (performFullSync apply (Except.ok (some [bad, good])) now).1 →
      tmin = now - 30 * dayMs ∧ tmax = now + 365 * dayMs) ∧
    (performFullSync apply (Except.ok (some [bad, good])) now).2.2 = true := by
  have hn' : tokenPresent (some nst) = true := by simp [tokenPresent, hn]
  refine ⟨?_, ?_, ?_, ?_, ?_⟩
  · simp [performFullSync, syncCalendar, pageLoop, hb, hg, hr, h1, h2, hn',
      appliedOf, List.filterMap_append, List.filterMap_map, filterMap_comp_applied]
  · simp [performFullSync, syncCalendar, pageLoop, hb, hg, hr, h1, h2, hn',
      refreshCallsOf, List.countP_append, List.countP_map, countP_comp_refresh]
  · simp [performFullSync, syncCalendar, pageLoop, hb, hg, hr, h1, h2, hn']
  · simp only [performFullSync, syncCalendar, pageLoop, hb, hg, hr, h1, h2, hn']
    simp [performFullSync, syncCalendar, pageLoop, hb, hg, hr, h1, h2, hn']
    intro c tmin tmax ptok h
    rcases h with ⟨_, ha, hbx, _⟩ | ⟨_, ha, hbx, _⟩ | ⟨_, ha, hbx, _⟩ <;> exact ⟨ha, hbx⟩
  · simp [performFullSync, syncCalendar, pageLoop, hb, hg, hr, h1, h2, hn']

/-- A distinct sample event per index. -/
def mkEv (n : Nat) : Event :=
  { id := some (toString n), status := none, created := none, updated := none }

/-- A full first page of 250 events. -/
def ev250 : List Event := (List.range 250).map mkEv

/-- A final partial page of 10 events. -/
def ev10 : List Event := (List.range 10).map mkEv

/-- A calendar whose very first page request throws. -/
def badCal : CalOracle :=
  { calendarId := "b"
    pages := [Except.error { code := none, message := none }]
    refresh := Except.ok none }

/-- A calendar with 260 events over pages of 250 and 10 and a fresh token on
the refresh call. -/
def goodCal : CalOracle :=
  { calendarId := "g"
    pages := [Except.ok { items := ev250, nextPageToken := some "pg" },
              Except.ok { items := ev10, nextPageToken := none }]
    refresh := Except.ok (some "T") }

/-- C8 witness: on the concrete two-calendar oracle — one failing, one with
260 events over pages of 250 + 10 — all 260 events of the healthy calendar
are applied as `created`, its refresh call happens once and persists `"T"`,
and the run still succeeds. -/
theorem performFullSync_witness :
    goodCal.pages = [Except.ok { items := ev250, nextPageToken := some "pg" },
      Except.ok { items := ev10, nextPageToken := none }] ∧
    tokenPresent (some "pg") = true ∧
    tokenPresent (none : Option String) = false ∧
    (ev250 ++ ev10).length = 260 ∧
    appliedOf "g" (performFullSync (fun _ => true) (Except.ok (some [badCal, goodCal])) 0).1 =
      (ev250 ++ ev10).map (fun e => (e, ChangeType.created)) ∧
    refreshCallsOf "g"
        (performFullSync (fun _ => true) (Except.ok (some [badCal, goodCal])) 0).1 = 1 ∧
    FSEvent.tokenWrite "g" (some "T") ∈
      (performFullSync (fun _ => true) (Except.ok (some [badCal, goodCal])) 0).1 ∧
    (performFullSync (fun _ => true) (Except.ok (some [badCal, goodCal])) 0).2.2 = true := by
  have h := performFullSync_claim (fun _ => true) 0 badCal goodCal
    { code := none, message := none } []
    { items := ev250, nextPageToken := some "pg" } { items := ev10, nextPageToken := none }
    "T" rfl rfl rfl rfl rfl (by decide)
  exact ⟨rfl, rfl, rfl, by simp [ev250, ev10], h.1, h.2.1, h.2.2.1, h.2.2.2.2⟩

end GCalSync
